import Mathlib

/-!
Shallow embedding of the IPL 2025 dashboard (src/app.py).

The dashboard loads two tables — a match table (matches.csv) and a bowler
table (IPL2025Bowlers.csv) — and computes a handful of derived metrics and
leaderboards over them.  We embed the rows as Lean structures, the tables as
lists of rows, and each query of app.py as a Lean function on those lists.

pandas specifics and how they are modelled:
* a DataFrame column sort (DataFrame.sort_values on a numeric column followed
  by .head(n)) is modelled as a stable comparison sort on the key followed by
  List.take n; rows that tie on the key keep their original table order;
* boolean-mask filtering (df[mask]) is List.filter, which keeps table order;
* the column assignment ipl2025["total_score"] = ... mutates the in-memory
  DataFrame; we model the match-table DataFrame as rows carrying an optional
  derived column (none until assigned) and the assignment as a function from
  table to table;
* missing csv cells (NaN) are modelled as none in a grid of optional cells,
  and DataFrame.fillna(0) replaces every none by 0.
-/

namespace IPL2025

open scoped List

/-- One row of the bowler table (IPL2025Bowlers.csv).  The fields are the
columns the dashboard reads: Player Name, Team, MAT (matches played),
OVR (overs bowled), WKT (wickets), ECO (economy rate), SR (strike rate). -/
structure BowlerRecord where
  player_name : String
  team : String
  mat : Nat
  ovr : Rat
  wkt : Nat
  eco : Rat
  sr : Rat
deriving Repr, DecidableEq

/-- One row of the match table (matches.csv), restricted to the columns the
dashboard reads.  The field `total_score` models the derived DataFrame column
of the same name: it is `none` until the runs section assigns it
(app.py lines 111-113). -/
structure MatchRow where
  match_id : Nat
  team1 : String
  team2 : String
  venue : String
  stage : String
  toss_winner : String
  match_winner : String
  first_ings_score : Nat
  second_ings_score : Nat
  top_scorer : String
  highscore : Nat
  total_score : Option Nat
deriving Repr, DecidableEq

/-- The Metric Deriver: per-match combined score, the value app.py lines
111-113 compute for each row (first innings score plus second innings
score). -/
def total_score (m : MatchRow) : Nat :=
  m.first_ings_score + m.second_ings_score

/-- The column assignment `ipl2025["total_score"] = ipl2025["first_ings_score"]
+ ipl2025["second_ings_score"]` (app.py lines 111-113): it writes the derived
column into every row of the in-memory match table. -/
def add_total_score (t : List MatchRow) : List MatchRow :=
  t.map fun m => { m with total_score := some (total_score m) }

/-- Comparison used to model pandas sort_values on a numeric column:
ascending (asc = true) or descending (asc = false) on the key. -/
def keyLE {α β : Type} [LinearOrder β] (key : α → β) (asc : Bool) (a b : α) : Prop :=
  match asc with
  | true => key a ≤ key b
  | false => key b ≤ key a

instance {α β : Type} [LinearOrder β] (key : α → β) (asc : Bool) :
    DecidableRel (keyLE key asc) := fun a b =>
  match asc with
  | true => inferInstanceAs (Decidable (key a ≤ key b))
  | false => inferInstanceAs (Decidable (key b ≤ key a))

instance {α β : Type} [LinearOrder β] (key : α → β) (asc : Bool) :
    IsTotal α (keyLE key asc) :=
  ⟨fun a b => by cases asc <;> simp only [keyLE] <;> exact le_total _ _⟩

instance {α β : Type} [LinearOrder β] (key : α → β) (asc : Bool) :
    IsTrans α (keyLE key asc) :=
  ⟨fun a b c hab hbc => by
    cases asc
    · exact le_trans hbc hab
    · exact le_trans hab hbc⟩

/-- pandas `DataFrame.sort_values` on a numeric key.  The source calls it
with the default kind (quicksort), whose tie order is unspecified — pandas
guarantees tie order only under kind="stable", and a descending sort reverses
the ascending indexer.  A deterministic embedding must fix some tie order; we
use a stable insertion sort.  The theorems proved about the queries below do
not depend on this choice: they state only key-order, membership, length and
permutation facts that hold for every tie order. -/
def sort_values {α β : Type} [LinearOrder β] (key : α → β) (asc : Bool)
    (t : List α) : List α :=
  t.insertionSort (keyLE key asc)

/-- app.py line 204: `eco = bowlers.sort_values("ECO").head(10)` — the bowling
economy leaderboard, ascending on ECO, first 10 rows, no filtering. -/
def eco (bowlers : List BowlerRecord) : List BowlerRecord :=
  (sort_values (fun b => b.eco) true bowlers).take 10

/-- app.py line 250: `death = bowlers[bowlers["OVR"] > 15]` — the death-overs
subset, a plain filter with no ranking and no truncation. -/
def death (bowlers : List BowlerRecord) : List BowlerRecord :=
  bowlers.filter fun b => decide (15 < b.ovr)

/-- app.py line 271: `impact = bowlers[bowlers["OVR"] < 16].head(10)` — filter
to fewer than 16 overs and take the first 10 rows in table order (the source
never re-sorts this selection). -/
def impact (bowlers : List BowlerRecord) : List BowlerRecord :=
  (bowlers.filter fun b => decide (b.ovr < 16)).take 10

/-- app.py lines 291-292: `underrated = bowlers[(bowlers["MAT"] < 8) &
(bowlers["MAT"] > 3)]; underrated = underrated.sort_values("ECO").head(5)`. -/
def underrated (bowlers : List BowlerRecord) : List BowlerRecord :=
  (sort_values (fun b => b.eco) true
      (bowlers.filter fun b => decide (b.mat < 8) && decide (3 < b.mat))).take 5

/-- app.py lines 155-159: `top10_matches = ipl2025.sort_values("total_score",
ascending=False).head(10)`, run after the total_score column was assigned at
lines 111-113: sort the derived table descending on the total_score column and
take the first 10 rows. -/
def top10_matches (t : List MatchRow) : List MatchRow :=
  (sort_values (fun m => m.total_score.getD 0) false (add_total_score t)).take 10

/-- The Leaderboard Ranker of the spec: filter by a predicate, stable-sort on
a numeric key in the given direction, truncate to the first n rows.  The
concrete leaderboards eco and underrated are instances of it. -/
def leaderboard_rank {α β : Type} [LinearOrder β] (p : α → Bool) (key : α → β)
    (asc : Bool) (n : Nat) (t : List α) : List α :=
  (sort_values key asc (t.filter p)).take n

/-- A raw csv table as read by pandas: a grid of cells, where `none` is a
missing cell (NaN) and `some q` a present numeric value. -/
abbrev RawTable := List (List (Option Rat))

/-- pandas `DataFrame.fillna v`: every missing cell becomes v, present cells
are unchanged (app.py line 57 uses it with v = 0 on the match table). -/
def fillna (v : Rat) (t : RawTable) : RawTable :=
  t.map (List.map fun c => some (c.getD v))

/-- app.py lines 53-58: read both csv files, apply fillna(0) to the match
table only, and return the pair; the bowler table is returned exactly as
read. -/
def load_data (matches_csv bowlers_csv : RawTable) : RawTable × RawTable :=
  (fillna 0 matches_csv, bowlers_csv)

/-- Modelled from the spec: the Toss-Advantage Estimator is described in the
specification (win_rate = 100 * count(toss_winner == match_winner) /
total_match_count, raising EmptyInputError on an empty table) but no toss
analysis is present in src/app.py, so the definition follows the spec text. -/
def toss_advantage (ms : List MatchRow) : Except String Rat :=
  if ms.isEmpty then Except.error "EmptyInputError"
  else Except.ok (100 *
    (((ms.filter fun m => m.toss_winner == m.match_winner).length : Rat) /
      (ms.length : Rat)))

/-- The rational 6.1 (61/10), written with the explicit constructor so that
it evaluates inside the kernel. -/
def q61over10 : Rat := ⟨61, 10, by decide, by decide⟩

/-- The rational 5.5 (11/2), written with the explicit constructor so that
it evaluates inside the kernel. -/
def q11over2 : Rat := ⟨11, 2, by decide, by decide⟩

/-- A concrete bowler row used in scenario checks (economy 6.1). -/
def bowlerX : BowlerRecord :=
  { player_name := "X", team := "T1", mat := 5, ovr := 20, wkt := 6,
    eco := q61over10, sr := 18 }

/-- A concrete bowler row used in scenario checks (economy 7.0). -/
def bowlerY : BowlerRecord :=
  { player_name := "Y", team := "T2", mat := 6, ovr := 30, wkt := 9,
    eco := 7, sr := 15 }

/-- A concrete bowler row used in scenario checks (economy 5.5). -/
def bowlerZ : BowlerRecord :=
  { player_name := "Z", team := "T3", mat := 4, ovr := 12, wkt := 4,
    eco := q11over2, sr := 21 }

/-- A concrete match row (derived column not yet assigned). -/
def sample_match : MatchRow :=
  { match_id := 1, team1 := "A", team2 := "B", venue := "V", stage := "league",
    toss_winner := "A", match_winner := "A", first_ings_score := 200,
    second_ings_score := 150, top_scorer := "P", highscore := 90,
    total_score := none }

/-- Erase the derived column of a match row; two tables agree on all
pre-existing columns exactly when their images under this map agree. -/
def strip_total (m : MatchRow) : MatchRow :=
  { m with total_score := none }

/-- Rewrite the batting columns (highscore, top_scorer) of a match row,
leaving every other column alone. -/
def set_batting (f : Nat → Nat) (g : String → String) (m : MatchRow) : MatchRow :=
  { m with highscore := f m.highscore, top_scorer := g m.top_scorer }

lemma column_eq_of_mem_add_total_score {t : List MatchRow} {m : MatchRow}
    (hm : m ∈ add_total_score t) : m.total_score = some (total_score m) := by
  rcases List.mem_map.mp hm with ⟨m0, _, rfl⟩
  rfl

/-- C1: for every match row, the derived metric equals the sum of the two
innings scores and is non-negative; the column assignment stores exactly this
value in every row of the derived table. -/
theorem total_score_spec (m : MatchRow) (t : List MatchRow) :
    total_score m = m.first_ings_score + m.second_ings_score ∧
    0 ≤ total_score m ∧
    (add_total_score t).all
      (fun r => r.total_score == some (r.first_ings_score + r.second_ings_score))
      = true := by
  refine ⟨rfl, Nat.zero_le _, ?_⟩
  rw [List.all_eq_true]
  intro r hr
  rw [column_eq_of_mem_add_total_score hr]
  simp [total_score]

/-- C4 counterexample: the derived total_score column is persisted into the
loaded match table — running the column assignment on a concrete one-row
table changes the table held in memory. -/
theorem add_total_score_mutates :
    add_total_score [sample_match] ≠ [sample_match] := by decide

/-- C4 amended: computing the derived total_score column does write the
column into the in-memory match table, but it preserves the number of rows,
their order, and every pre-existing column, and stores the derived metric in
every row; the bowler table is untouched by every query. -/
theorem add_total_score_frame (t : List MatchRow) :
    (add_total_score t).map strip_total = t.map strip_total ∧
    (add_total_score t).length = t.length ∧
    (add_total_score t).all
      (fun r => r.total_score == some (total_score r)) = true := by
  refine ⟨?_, by simp [add_total_score], ?_⟩
  · rw [add_total_score, List.map_map]
    rfl
  · rw [List.all_eq_true]
    intro r hr
    rw [column_eq_of_mem_add_total_score hr]
    simp

/-- C5: the impact selection is the rows with fewer than 16 overs taken in
original table order (a sublist of the table) and truncated to the first 10;
it is never re-sorted by wickets or any other key — rewriting the wickets
column arbitrarily commutes with the selection. -/
theorem impact_spec (bowlers : List BowlerRecord) :
    impact bowlers = (bowlers.filter fun b => decide (b.ovr < 16)).take 10 ∧
    impact bowlers <+ bowlers ∧
    (impact bowlers).all (fun b => decide (b.ovr < 16)) = true ∧
    (impact bowlers).length ≤ 10 ∧
    ∀ f : Nat → Nat,
      impact (bowlers.map fun b => { b with wkt := f b.wkt }) =
        (impact bowlers).map fun b => { b with wkt := f b.wkt } := by
  refine ⟨rfl, ?_, ?_, ?_, ?_⟩
  · exact (List.take_sublist _ _).trans (List.filter_sublist bowlers)
  · rw [List.all_eq_true]
    intro b hb
    exact (List.mem_filter.mp (List.mem_of_mem_take hb)).2
  · exact List.length_take_le _ _
  · intro f
    rw [impact, impact, List.filter_map, List.map_take]
    rfl

/-- C7: the death-overs subset is exactly the rows with more than 15 overs,
in table order, with no ranking and no truncation: membership (with
multiplicity) is characterized by the predicate, and the subset has one row
per matching table row. -/
theorem death_spec (bowlers : List BowlerRecord) :
    death bowlers = bowlers.filter (fun b => decide (15 < b.ovr)) ∧
    death bowlers <+ bowlers ∧
    (∀ b : BowlerRecord, b ∈ death bowlers ↔ b ∈ bowlers ∧ 15 < b.ovr) ∧
    (∀ b : BowlerRecord, (death bowlers).count b =
      if 15 < b.ovr then bowlers.count b else 0) ∧
    (death bowlers).length = bowlers.countP (fun b => decide (15 < b.ovr)) := by
  refine ⟨rfl, List.filter_sublist bowlers, ?_, ?_, ?_⟩
  · intro b
    rw [death, List.mem_filter]
    simp
  · intro b
    by_cases hb : 15 < b.ovr
    · rw [if_pos hb, death, List.count_filter (by simpa using hb)]
    · rw [if_neg hb, List.count_eq_zero]
      intro hmem
      exact hb (by simpa using (List.mem_filter.mp hmem).2)
  · rw [death, List.countP_eq_length_filter]

/-- C2: the economy leaderboard sorts the whole bowler table ascending by
economy rate — no rows filtered out, so the sorted table is a permutation of
the input — and keeps the first 10 rows; on the scenario table [X, Y, Z] with
economies [6.1, 7.0, 5.5] the top two are [Z, X]. -/
theorem eco_spec (bowlers : List BowlerRecord) :
    eco bowlers = leaderboard_rank (fun _ => true) (fun b => b.eco) true 10 bowlers ∧
    sort_values (fun b => b.eco) true bowlers ~ bowlers ∧
    (eco bowlers).Pairwise (fun a b => a.eco ≤ b.eco) ∧
    (eco bowlers).length ≤ 10 ∧
    (sort_values (fun b => b.eco) true [bowlerX, bowlerY, bowlerZ]).take 2 =
      [bowlerZ, bowlerX] := by
  refine ⟨?_, List.perm_insertionSort _ _, ?_, List.length_take_le _ _, by decide⟩
  · rw [leaderboard_rank, List.filter_eq_self.mpr fun a _ => rfl]
    rfl
  · have h : (eco bowlers).Pairwise (keyLE (fun b : BowlerRecord => b.eco) true) :=
      (List.sorted_insertionSort _ _).sublist (List.take_sublist _ _)
    exact h.imp fun hab => hab

/-- C6: the underrated selection filters to bowlers with strictly more than 3
and strictly fewer than 8 matches, sorts them ascending by economy rate (a
permutation of the filtered rows) and keeps the first 5. -/
theorem underrated_spec (bowlers : List BowlerRecord) :
    underrated bowlers =
      leaderboard_rank (fun b => decide (b.mat < 8) && decide (3 < b.mat))
        (fun b => b.eco) true 5 bowlers ∧
    (underrated bowlers).all
      (fun b => decide (3 < b.mat) && decide (b.mat < 8)) = true ∧
    (underrated bowlers).Pairwise (fun a b => a.eco ≤ b.eco) ∧
    (underrated bowlers).length ≤ 5 ∧
    sort_values (fun b => b.eco) true
        (bowlers.filter fun b => decide (b.mat < 8) && decide (3 < b.mat)) ~
      bowlers.filter fun b => decide (b.mat < 8) && decide (3 < b.mat) := by
  refine ⟨rfl, ?_, ?_, List.length_take_le _ _, List.perm_insertionSort _ _⟩
  · rw [List.all_eq_true]
    intro b hb
    have hb2 := (List.mem_insertionSort _).mp (List.mem_of_mem_take hb)
    have hpb := (List.mem_filter.mp hb2).2
    simp only [Bool.and_eq_true, decide_eq_true_eq] at hpb ⊢
    exact ⟨hpb.2, hpb.1⟩
  · have h : (underrated bowlers).Pairwise (keyLE (fun b : BowlerRecord => b.eco) true) :=
      (List.sorted_insertionSort _ _).sublist (List.take_sublist _ _)
    exact h.imp fun hab => hab

lemma fillna_row (v : Rat) :
    ∀ (r : List (Option Rat)) (j : Nat),
      (r.map fun c => some (c.getD v)).getD j (some v) =
        some ((r.getD j none).getD v)
  | [], j => by simp
  | c :: r, 0 => by simp
  | c :: r, j + 1 => by simpa using fillna_row v r j

lemma fillna_cell (v : Rat) :
    ∀ (t : RawTable) (i j : Nat),
      ((fillna v t).getD i []).getD j (some v) =
        some (((t.getD i []).getD j none).getD v)
  | [], i, j => by simp [fillna]
  | r :: t, 0, j => by
    simp only [fillna, List.map_cons, List.getD_cons_zero]
    exact fillna_row v r j
  | r :: t, i + 1, j => by
    simp only [fillna, List.map_cons, List.getD_cons_succ]
    exact fillna_cell v t i j

/-- C8: load_data normalizes the match table with fillna(0) — cellwise, a
missing cell becomes 0 and a present cell keeps its value, with the table
shape preserved — and returns the bowler table exactly as read, with no
missing-value normalization. -/
theorem load_data_spec (mc bc : RawTable) :
    (load_data mc bc).2 = bc ∧
    (load_data mc bc).1 = mc.map (List.map fun c => some (c.getD 0)) ∧
    (load_data mc bc).1.map List.length = mc.map List.length ∧
    (∀ i j : Nat, ((load_data mc bc).1.getD i []).getD j (some 0) =
      some (((mc.getD i []).getD j none).getD 0)) ∧
    load_data [[none, some 3]] [[none, some 3]] =
      ([[some 0, some 3]], [[none, some 3]]) := by
  refine ⟨rfl, rfl, ?_, fun i j => fillna_cell 0 mc i j, by decide⟩
  simp [load_data, fillna, List.map_map, Function.comp_def]

/-- C9: the Toss-Advantage Estimator raises EmptyInputError on an empty match
table, and on a non-empty table returns the percentage of matches whose toss
winner is also the match winner, a value between 0 and 100. -/
theorem toss_advantage_spec (ms : List MatchRow) :
    match toss_advantage ms with
    | Except.error e => ms = [] ∧ e = "EmptyInputError"
    | Except.ok r =>
        ms.isEmpty = false ∧
        r = 100 * (((ms.filter fun m =>
            m.toss_winner == m.match_winner).length : Rat) / (ms.length : Rat)) ∧
        0 ≤ r ∧ r ≤ 100 := by
  rw [toss_advantage]
  by_cases h : ms.isEmpty = true
  · rw [if_pos h]
    exact ⟨List.isEmpty_iff.mp h, rfl⟩
  · rw [if_neg h]
    have hne : ms ≠ [] := fun hnil => h (by simp [hnil])
    have hlen : (0 : Rat) < (ms.length : Rat) := by
      exact_mod_cast List.length_pos.mpr hne
    have hfil : ((ms.filter fun m =>
        m.toss_winner == m.match_winner).length : Rat) ≤ (ms.length : Rat) := by
      exact_mod_cast List.length_filter_le _ _
    refine ⟨by simpa using h, rfl, ?_, ?_⟩
    · exact mul_nonneg (by norm_num)
        (div_nonneg (Nat.cast_nonneg _) hlen.le)
    · calc 100 * (((ms.filter fun m =>
            m.toss_winner == m.match_winner).length : Rat) / (ms.length : Rat))
          ≤ 100 * 1 :=
            mul_le_mul_of_nonneg_left ((div_le_one hlen).mpr hfil) (by norm_num)
        _ = 100 := by norm_num

/-- C10: the top-10 highest-scoring matches are the derived match table
sorted descending on the total-score column (a permutation of the whole
derived table: no grouping, no filtering) truncated to the first 10 rows;
the output is descending in the derived per-match metric, and the selection
never consults the highscore or top_scorer columns — rewriting them
arbitrarily commutes with the selection. -/
theorem top10_matches_spec (t : List MatchRow) :
    top10_matches t =
      (sort_values (fun m => m.total_score.getD 0) false (add_total_score t)).take 10 ∧
    sort_values (fun m => m.total_score.getD 0) false (add_total_score t) ~
      add_total_score t ∧
    (top10_matches t).Pairwise (fun a b => total_score b ≤ total_score a) ∧
    (top10_matches t).all (fun r => r.total_score == some (total_score r)) = true ∧
    (top10_matches t).length ≤ 10 ∧
    ∀ (f : Nat → Nat) (g : String → String),
      top10_matches (t.map (set_batting f g)) =
        (top10_matches t).map (set_batting f g) := by
  refine ⟨rfl, List.perm_insertionSort _ _, ?_, ?_, List.length_take_le _ _, ?_⟩
  · have hs : (top10_matches t).Pairwise
        (keyLE (fun m : MatchRow => m.total_score.getD 0) false) :=
      (List.sorted_insertionSort _ _).sublist (List.take_sublist _ _)
    refine List.Pairwise.imp_of_mem ?_ hs
    intro a b ha hb hab
    have ha2 := column_eq_of_mem_add_total_score
      ((List.mem_insertionSort _).mp (List.mem_of_mem_take ha))
    have hb2 := column_eq_of_mem_add_total_score
      ((List.mem_insertionSort _).mp (List.mem_of_mem_take hb))
    simpa [keyLE, ha2, hb2] using hab
  · rw [List.all_eq_true]
    intro r hr
    have hr2 := column_eq_of_mem_add_total_score
      ((List.mem_insertionSort _).mp (List.mem_of_mem_take hr))
    simp [hr2]
  · intro f g
    have h1 : add_total_score (t.map (set_batting f g)) =
        (add_total_score t).map (set_batting f g) := by
      rw [add_total_score, add_total_score, List.map_map, List.map_map]
      rfl
    have h2 : ((add_total_score t).insertionSort
          (keyLE (fun m : MatchRow => m.total_score.getD 0) false)).map (set_batting f g) =
        ((add_total_score t).map (set_batting f g)).insertionSort
          (keyLE (fun m : MatchRow => m.total_score.getD 0) false) :=
      List.map_insertionSort _ _ _ _ fun a _ b _ => Iff.rfl
    rw [top10_matches, top10_matches, sort_values, sort_values, h1,
      List.map_take, h2]

end IPL2025
